import Mathlib

/-!
Shallow embedding of the UK visa cost calculator (src/js/calculator.js) and
the offline data-validation script (src/scripts/validate.js).

Monetary amounts are modelled as rationals (`ℚ`); JavaScript `null` on the
two nullable fee fields is modelled as `Option ℚ`.  The fee table (a JSON
object) is modelled as an association list from key strings to fee entries.
A JavaScript `TypeError` (property access on `undefined`, as happens in
`getPriorityFee` when the `priority` fee entry is absent) is modelled by the
`CalcError.typeError` error value of an `Except`.
-/

namespace VisaCalc

/-- Character-list membership of `pat` as a leading segment of a list,
    used to embed JavaScript `String.prototype.includes`. -/
def leadsChars : List Char → List Char → Bool
  | [], _ => true
  | _ :: _, [] => false
  | c :: cs, d :: ds => c == d && leadsChars cs ds

/-- Predicate `occursChars pat s`: `pat` occurs contiguously somewhere in `s`. -/
def occursChars : List Char → List Char → Bool
  | pat, [] => leadsChars pat []
  | pat, d :: ds => leadsChars pat (d :: ds) || occursChars pat ds

/-- Embedding of JavaScript `s.includes(pat)` on strings. -/
def strContains (s pat : String) : Bool :=
  occursChars pat.data s.data

/-- A fee-table entry: two nullable amounts (src data model, spec §3). -/
structure FeeEntry where
  amount_inside_uk : Option ℚ
  amount_outside_uk : Option ℚ
  deriving DecidableEq, Repr

/-- The fee table `fees.json`: a JSON object, modelled as an association
    list from fee keys to entries. -/
def Fees : Type := List (String × FeeEntry)

/-- JavaScript property lookup `fees[key]`: `none` models `undefined`. -/
def lookupFee (fees : Fees) (key : String) : Option FeeEntry :=
  (fees.find? (fun kv => kv.1 == key)).map (fun kv => kv.2)

/-- A route record (fields of `routes.json` that `Calculator.calculate`
    reads).  `fee_items` is `none` when the field is absent. -/
structure Route where
  route_id : String
  ihs_policy : String
  fee_items : Option (List String)
  extras_supported : List String
  last_reviewed : String
  deriving DecidableEq, Repr

/-- IHS rate record from `rules.json`. -/
structure IhsRate where
  rate_per_year : ℚ
  deriving DecidableEq, Repr

/-- IHS rate categories from `rules.json`. -/
structure IhsRates where
  standard : IhsRate
  student : IhsRate
  deriving DecidableEq, Repr

/-- The rules table `rules.json`. -/
structure Rules where
  ihs_rates : IhsRates
  deriving DecidableEq, Repr

/-- Calculation parameters (the `params` object of `Calculator.calculate`).
    Applicant counts are naturals; `parseInt` on them is the identity. -/
structure Params where
  routeId : String
  applyFrom : String
  duration : ℕ
  applicants : ℕ
  dependants : ℕ
  addPriority : Bool
  addSuperPriority : Bool
  deriving DecidableEq, Repr

/-- One breakdown line item `{ item, amount }`. -/
structure LineItem where
  item : String
  amount : ℚ
  deriving DecidableEq, Repr

/-- The result object of `Calculator.calculate`. -/
structure CalcResult where
  breakdown : List LineItem
  total : ℚ
  lastReviewed : String
  deriving DecidableEq, Repr

/-- The two ways `Calculator.calculate` can throw: the explicit
    `new Error('Route not found')`, and the implicit `TypeError` from a
    property access on `undefined`. -/
inductive CalcError where
  | routeNotFound
  | typeError
  deriving DecidableEq, Repr

/-- JavaScript `a || b` specialised to a nullable number on the left:
    `null` and `0` are falsy. -/
def jsOrQ (a : Option ℚ) (b : ℚ) : ℚ :=
  match a with
  | none => b
  | some x => if x = 0 then b else x

/-- JavaScript multiplication of a nullable number by a count:
    `null * n` evaluates to `0`. -/
def jsMulOpt (a : Option ℚ) (n : ℕ) : ℚ :=
  (a.getD 0) * (n : ℚ)

/-- Embedding of `Calculator.getFeeKey`: select the route fee key matching the
    apply-from location (calculator.js lines 143–153). -/
def getFeeKey (route : Route) (applyFrom : String) : Option String :=
  match route.fee_items with
  | none => none
  | some feeItems =>
    match feeItems with
    | [] => none
    | f0 :: _ =>
      if applyFrom = "inside_uk" then
        some ((feeItems.find? (fun f => strContains f "inside")).getD f0)
      else
        some ((feeItems.find? (fun f => strContains f "outside")).getD f0)

/-- Embedding of `Calculator.getFeeAmount` (calculator.js lines 158–171): amount for the
    requested location, with the `fee.amount_inside_uk || fee.amount_outside_uk || 0`
    fallback. -/
def getFeeAmount (fees : Fees) (feeKey : String) (applyFrom : String) : ℚ :=
  match lookupFee fees feeKey with
  | none => 0
  | some fee =>
    if applyFrom = "inside_uk" ∧ fee.amount_inside_uk ≠ none then
      fee.amount_inside_uk.getD 0
    else if applyFrom = "outside_uk" ∧ fee.amount_outside_uk ≠ none then
      fee.amount_outside_uk.getD 0
    else
      jsOrQ fee.amount_inside_uk (jsOrQ fee.amount_outside_uk 0)

/-- Embedding of `Calculator.getPriorityFee` (calculator.js lines 176–179).  The outer
    `Option` is `none` when `fees['priority']` is `undefined`, in which case
    the field access throws a `TypeError`; the inner `Option ℚ` is the
    nullable field value itself. -/
def getPriorityFee (fees : Fees) (applyFrom : String) : Option (Option ℚ) :=
  match lookupFee fees "priority" with
  | none => none
  | some fee =>
      some (if applyFrom = "inside_uk" then fee.amount_inside_uk else fee.amount_outside_uk)

/-- Embedding of `Calculator.getSuperPriorityFee` (calculator.js lines 184–187). -/
def getSuperPriorityFee (fees : Fees) (applyFrom : String) : Option (Option ℚ) :=
  match lookupFee fees "super_priority" with
  | none => none
  | some fee =>
      some (if applyFrom = "inside_uk" then fee.amount_inside_uk else fee.amount_outside_uk)

/-- Embedding of `Calculator.calculateIHS` (calculator.js lines 125–138):
    `rate * Math.ceil(months / 6) * 0.5 * (applicants + dependants)`. -/
def calculateIHS (rules : Rules) (route : Route)
    (durationMonths applicants dependants : ℕ) : ℚ :=
  let rate : ℚ :=
    if route.ihs_policy = "required_student" then
      rules.ihs_rates.student.rate_per_year
    else
      rules.ihs_rates.standard.rate_per_year
  let years : ℚ := ((⌈(durationMonths : ℚ) / 6⌉ : ℤ) : ℚ) * (1 / 2)
  rate * years * ((applicants + dependants : ℕ) : ℚ)

/-- The template-literal label of the application-fee line item. -/
def appFeeLabel (totalApplicants : ℕ) : String :=
  "Application Fee (" ++ toString totalApplicants ++ " applicant"
    ++ (if 1 < totalApplicants then "s" else "") ++ ")"

/-- Application-fee block of `calculate` (lines 51–62): the pushed line
    items and the amount added to `total`.  The guard embeds
    `if (feeKey && this.fees[feeKey])`: a `null` or empty-string key is
    falsy, and the fee entry must exist. -/
def appFeeSeg (fees : Fees) (route : Route) (applyFrom : String)
    (totalApplicants : ℕ) : List LineItem × ℚ :=
  match getFeeKey route applyFrom with
  | none => ([], 0)
  | some feeKey =>
    if feeKey ≠ "" ∧ (lookupFee fees feeKey).isSome then
      let applicationCost := getFeeAmount fees feeKey applyFrom * (totalApplicants : ℚ)
      ([⟨appFeeLabel totalApplicants, applicationCost⟩], applicationCost)
    else ([], 0)

/-- IHS block of `calculate` (lines 65–74). -/
def ihsSeg (rules : Rules) (route : Route)
    (duration applicants dependants : ℕ) : List LineItem × ℚ :=
  if route.ihs_policy ≠ "not_required" ∧ route.ihs_policy ≠ "exempt" then
    let ihsCost := calculateIHS rules route duration applicants dependants
    if 0 < ihsCost then ([⟨"Immigration Health Surcharge", ihsCost⟩], ihsCost)
    else ([], 0)
  else ([], 0)

/-- Priority-service block of `calculate` (lines 77–84).  `none` models the
    `TypeError` thrown inside `getPriorityFee` when the fee entry is absent. -/
def prioritySeg (fees : Fees) (route : Route) (applyFrom : String)
    (addPriority : Bool) (totalApplicants : ℕ) : Option (List LineItem × ℚ) :=
  if addPriority = true ∧ route.extras_supported.contains "priority" = true then
    match getPriorityFee fees applyFrom with
    | none => none
    | some v =>
        let priorityCost := jsMulOpt v totalApplicants
        some ([⟨"Priority Service", priorityCost⟩], priorityCost)
  else some ([], 0)

/-- Super-priority block of `calculate` (lines 86–93). -/
def superPrioritySeg (fees : Fees) (route : Route) (applyFrom : String)
    (addSuperPriority : Bool) (totalApplicants : ℕ) : Option (List LineItem × ℚ) :=
  if addSuperPriority = true ∧ route.extras_supported.contains "super_priority" = true then
    match getSuperPriorityFee fees applyFrom with
    | none => none
    | some v =>
        let superPriorityCost := jsMulOpt v totalApplicants
        some ([⟨"Super Priority Service", superPriorityCost⟩], superPriorityCost)
  else some ([], 0)

/-- Citizenship-ceremony block of `calculate` (lines 96–103).  The source
    reads `this.fees['citizenship_ceremony'].amount_inside_uk` with no
    existence check, so a missing entry is a `TypeError` (`none`). -/
def ceremonySeg (fees : Fees) (route : Route)
    (totalApplicants : ℕ) : Option (List LineItem × ℚ) :=
  if route.extras_supported.contains "citizenship_ceremony" = true then
    match lookupFee fees "citizenship_ceremony" with
    | none => none
    | some fee =>
        let ceremonyCost := jsMulOpt fee.amount_inside_uk totalApplicants
        some ([⟨"Citizenship Ceremony", ceremonyCost⟩], ceremonyCost)
  else some ([], 0)

/-- Life-in-the-UK-test block of `calculate` (lines 106–113). -/
def testSeg (routeId : String) (totalApplicants : ℕ) : List LineItem × ℚ :=
  if strContains routeId "indefinite-leave" = true ∨ strContains routeId "citizenship" = true then
    let testCost : ℚ := 50 * (totalApplicants : ℚ)
    ([⟨"Life in the UK Test", testCost⟩], testCost)
  else ([], 0)

/-- Embedding of `Calculator.calculate` (calculator.js lines 31–120): route lookup, then
    the six cost blocks in source order, accumulating breakdown and total.
    A `TypeError` in any of the three unguarded fee accesses aborts the whole
    call with no result, as in JavaScript. -/
def calculate (routes : List Route) (fees : Fees) (rules : Rules)
    (p : Params) : Except CalcError CalcResult :=
  match routes.find? (fun r => r.route_id == p.routeId) with
  | none => Except.error CalcError.routeNotFound
  | some route =>
    let totalApplicants : ℕ := p.applicants + p.dependants
    let s1 := appFeeSeg fees route p.applyFrom totalApplicants
    let s2 := ihsSeg rules route p.duration p.applicants p.dependants
    match prioritySeg fees route p.applyFrom p.addPriority totalApplicants,
          superPrioritySeg fees route p.applyFrom p.addSuperPriority totalApplicants,
          ceremonySeg fees route totalApplicants with
    | some s3, some s4, some s5 =>
        let s6 := testSeg p.routeId totalApplicants
        Except.ok
          { breakdown := s1.1 ++ s2.1 ++ s3.1 ++ s4.1 ++ s5.1 ++ s6.1
            total := s1.2 + s2.2 + s3.2 + s4.2 + s5.2 + s6.2
            lastReviewed := route.last_reviewed }
    | _, _, _ => Except.error CalcError.typeError

/-- Sum of the amounts of a breakdown's line items. -/
def sumAmounts (b : List LineItem) : ℚ :=
  (b.map (fun li => li.amount)).sum

/-!
Embedding of the offline validation script `src/scripts/validate.js`.
Routes are modelled by the projections the script reads: the identifier,
the (possibly absent) `fee_items` array, the set of field names defined on
the JSON object, whether `indexable === true`, and whether the per-route
content file exists on disk.  A `none` table models a file that failed to
parse (`loadJSON` returning `null`).
-/

/-- Route projections read by `validate.js`. -/
structure VRoute where
  route_id : String
  fee_items : Option (List String)
  fieldsDefined : List String
  indexable_true : Bool
  content_file_exists : Bool
  deriving DecidableEq, Repr

/-- Input state of a validation run: the three parsed tables (with `none`
    for a parse failure; of `rules.json` only parse success matters). -/
structure VData where
  routesData : Option (List VRoute)
  feesKeys : Option (List String)
  rulesParsed : Bool
  deriving DecidableEq, Repr

/-- Observable outcome of a validation run: the `errors` and `warnings`
    counters and the process exit code. -/
structure VOutcome where
  errors : ℕ
  warnings : ℕ
  exitCode : ℕ
  deriving DecidableEq, Repr

/-- The `requiredFields` list of validate.js line 98. -/
def requiredFields : List String :=
  ["route_id", "name", "category", "indexable", "apply_from_options",
   "duration_policy", "ihs_policy"]

/-- Index of the first occurrence of `x`, embedding `Array.prototype.indexOf`
    at an element known to be present. -/
def firstIdx (x : String) : List String → ℕ
  | [] => 0
  | y :: ys => if y == x then 0 else firstIdx x ys + 1

/-- The duplicate filter of validate.js line 70:
    `routeIds.filter((id, index) => routeIds.indexOf(id) !== index)`. -/
def dupIds (ids : List String) : List String :=
  (ids.enum.filter (fun p => !(firstIdx p.2 ids == p.1))).map (fun p => p.2)

/-- The whole validation run (validate.js lines 52–131): parse checks with
    the abort path, route-id uniqueness, fee-reference validity,
    required-field presence, content-file warnings, and the final
    `process.exit(errors > 0 ? 1 : 0)`. -/
def runValidation (d : VData) : VOutcome :=
  let parseErrors : ℕ :=
    (if d.routesData.isNone then 1 else 0) + (if d.feesKeys.isNone then 1 else 0) +
      (if d.rulesParsed then 0 else 1)
  match d.routesData, d.feesKeys, d.rulesParsed with
  | some routes, some feeKeys, true =>
      let routeIds := routes.map (fun r => r.route_id)
      let dupErrors : ℕ := if (dupIds routeIds).length > 0 then 1 else 0
      let missingFeeErrors : ℕ :=
        (routes.map (fun r =>
          match r.fee_items with
          | none => 0
          | some keys => (keys.filter (fun k => !(feeKeys.contains k))).length)).sum
      let missingFieldErrors : ℕ :=
        (routes.map (fun r =>
          (requiredFields.filter (fun f => !(r.fieldsDefined.contains f))).length)).sum
      let contentWarnings : ℕ :=
        ((routes.filter (fun r => r.indexable_true)).filter
          (fun r => !r.content_file_exists)).length
      let errors := parseErrors + dupErrors + missingFeeErrors + missingFieldErrors
      ⟨errors, contentWarnings, if errors > 0 then 1 else 0⟩
  | _, _, _ => ⟨parseErrors + 1, 0, 1⟩

/-!
Concrete data used by witness and counterexample theorems.  The fee and
rate figures mirror the worked example of the specification (Skilled Worker
from outside the UK, standard IHS rate, 12-month stay).
-/

/-- Skilled-worker-style route: location-split fee keys, IHS required,
    both priority services supported. -/
def wRouteSW : Route :=
  ⟨"skilled-worker", "required", some ["fee_sw_outside", "fee_sw_inside"],
   ["priority", "super_priority"], "2024-06-01"⟩

/-- Visitor-style route: single fee key, IHS not required, no extras. -/
def wRouteVisit : Route :=
  ⟨"standard-visitor", "not_required", some ["fee_visitor"], [], "2024-06-01"⟩

/-- Settlement route: identifier contains "indefinite-leave". -/
def wRouteILR : Route :=
  ⟨"indefinite-leave-remain", "not_required", none, [], "2024-06-01"⟩

/-- Citizenship route: ceremony extra supported, identifier contains
    "citizenship". -/
def wRouteCit : Route :=
  ⟨"citizenship-naturalisation", "not_required", none, ["citizenship_ceremony"],
   "2024-06-01"⟩

/-- Route whose declared fee key is absent from the fee table. -/
def wRouteGhost : Route :=
  ⟨"ghost-route", "not_required", some ["missing_fee"], [], "2024-06-01"⟩

/-- Route table used by the witnesses. -/
def wRoutes : List Route :=
  [wRouteSW, wRouteVisit, wRouteILR, wRouteCit, wRouteGhost]

/-- Fee table used by the witnesses. -/
def wFees : Fees :=
  [("fee_sw_outside", ⟨none, some 719⟩), ("fee_sw_inside", ⟨some 827, none⟩),
   ("fee_visitor", ⟨some 115, some 115⟩), ("priority", ⟨some 500, some 500⟩),
   ("super_priority", ⟨some 1000, some 800⟩), ("citizenship_ceremony", ⟨some 80, some 80⟩)]

/-- A fee table with the priority entry missing. -/
def wFeesNoPriority : Fees :=
  [("fee_sw_outside", ⟨none, some 719⟩), ("fee_sw_inside", ⟨some 827, none⟩)]

/-- An empty fee table. -/
def wFeesEmpty : Fees := []

/-- Rules table: standard and student IHS yearly rates. -/
def wRules : Rules := ⟨⟨⟨1035⟩, ⟨776⟩⟩⟩

/-- Skilled worker, outside UK, 12 months, one applicant. -/
def wParamsSW : Params := ⟨"skilled-worker", "outside_uk", 12, 1, 0, false, false⟩

/-- Same as `wParamsSW` with the priority flag on. -/
def wParamsSWpri : Params := ⟨"skilled-worker", "outside_uk", 12, 1, 0, true, false⟩

/-- Visitor applying from inside the UK. -/
def wParamsVisit : Params := ⟨"standard-visitor", "inside_uk", 6, 1, 0, false, false⟩

/-- Settlement application, permanent duration (0 months). -/
def wParamsILR : Params := ⟨"indefinite-leave-remain", "inside_uk", 0, 1, 0, false, false⟩

/-- Citizenship application with two applicants. -/
def wParamsCit : Params := ⟨"citizenship-naturalisation", "inside_uk", 0, 2, 0, false, false⟩

/-- Application on the route with a dangling fee key. -/
def wParamsGhost : Params := ⟨"ghost-route", "outside_uk", 6, 1, 0, false, false⟩

/-- Parameters naming a route id absent from `wRoutes`. -/
def wParamsNone : Params := ⟨"no-such-route", "outside_uk", 6, 1, 0, false, false⟩

/-- Expected result for `wParamsSW`. -/
def wResSW : CalcResult :=
  ⟨[⟨"Application Fee (1 applicant)", 719⟩, ⟨"Immigration Health Surcharge", 1035⟩],
   1754, "2024-06-01"⟩

/-- Expected result for `wParamsSWpri`. -/
def wResSWpri : CalcResult :=
  ⟨[⟨"Application Fee (1 applicant)", 719⟩, ⟨"Immigration Health Surcharge", 1035⟩,
    ⟨"Priority Service", 500⟩], 2254, "2024-06-01"⟩

/-- Expected result for `wParamsVisit`. -/
def wResVisit : CalcResult :=
  ⟨[⟨"Application Fee (1 applicant)", 115⟩], 115, "2024-06-01"⟩

/-- Expected result for `wParamsILR`. -/
def wResILR : CalcResult :=
  ⟨[⟨"Life in the UK Test", 50⟩], 50, "2024-06-01"⟩

/-- Expected result for `wParamsCit`. -/
def wResCit : CalcResult :=
  ⟨[⟨"Citizenship Ceremony", 160⟩, ⟨"Life in the UK Test", 100⟩], 260, "2024-06-01"⟩

/-- Expected result for `wParamsGhost`. -/
def wResGhost : CalcResult := ⟨[], 0, "2024-06-01"⟩

/-! Helper lemmas. -/

theorem ceil_eq_of (r : ℚ) (k : ℤ) (h1 : (k : ℚ) - 1 < r) (h2 : r ≤ (k : ℚ)) : ⌈r⌉ = k :=
  Int.ceil_eq_iff.mpr ⟨h1, h2⟩

theorem sumAmounts_append (a b : List LineItem) :
    sumAmounts (a ++ b) = sumAmounts a + sumAmounts b := by
  simp [sumAmounts]

theorem appFeeLabel_head (n : ℕ) : (appFeeLabel n).data.head? = some 'A' := by
  simp [appFeeLabel, String.data_append]

theorem appFeeLabel_ne (n : ℕ) (s : String) (h : s.data.head? ≠ some 'A') :
    appFeeLabel n ≠ s := by
  intro he
  exact h (he ▸ appFeeLabel_head n)

theorem calculate_find_none (routes : List Route) (fees : Fees) (rules : Rules) (p : Params)
    (hfind : routes.find? (fun r => r.route_id == p.routeId) = none) :
    calculate routes fees rules p = Except.error CalcError.routeNotFound := by
  simp only [calculate, hfind]

theorem calculate_ok_of (routes : List Route) (fees : Fees) (rules : Rules) (p : Params)
    (route : Route) (s3 s4 s5 : List LineItem × ℚ)
    (hfind : routes.find? (fun r => r.route_id == p.routeId) = some route)
    (h3 : prioritySeg fees route p.applyFrom p.addPriority (p.applicants + p.dependants) = some s3)
    (h4 : superPrioritySeg fees route p.applyFrom p.addSuperPriority (p.applicants + p.dependants) = some s4)
    (h5 : ceremonySeg fees route (p.applicants + p.dependants) = some s5) :
    calculate routes fees rules p = Except.ok
      { breakdown :=
          (appFeeSeg fees route p.applyFrom (p.applicants + p.dependants)).1
            ++ (ihsSeg rules route p.duration p.applicants p.dependants).1
            ++ s3.1 ++ s4.1 ++ s5.1
            ++ (testSeg p.routeId (p.applicants + p.dependants)).1
        total :=
          (appFeeSeg fees route p.applyFrom (p.applicants + p.dependants)).2
            + (ihsSeg rules route p.duration p.applicants p.dependants).2
            + s3.2 + s4.2 + s5.2
            + (testSeg p.routeId (p.applicants + p.dependants)).2
        lastReviewed := route.last_reviewed } := by
  simp only [calculate, hfind, h3, h4, h5]

theorem calculate_ok_inv (routes : List Route) (fees : Fees) (rules : Rules) (p : Params)
    (route : Route) (res : CalcResult)
    (hfind : routes.find? (fun r => r.route_id == p.routeId) = some route)
    (hres : calculate routes fees rules p = Except.ok res) :
    ∃ s3 s4 s5,
      prioritySeg fees route p.applyFrom p.addPriority (p.applicants + p.dependants) = some s3 ∧
      superPrioritySeg fees route p.applyFrom p.addSuperPriority (p.applicants + p.dependants) = some s4 ∧
      ceremonySeg fees route (p.applicants + p.dependants) = some s5 ∧
      res.breakdown =
        (appFeeSeg fees route p.applyFrom (p.applicants + p.dependants)).1
          ++ (ihsSeg rules route p.duration p.applicants p.dependants).1
          ++ s3.1 ++ s4.1 ++ s5.1
          ++ (testSeg p.routeId (p.applicants + p.dependants)).1 ∧
      res.total =
        (appFeeSeg fees route p.applyFrom (p.applicants + p.dependants)).2
          + (ihsSeg rules route p.duration p.applicants p.dependants).2
          + s3.2 + s4.2 + s5.2
          + (testSeg p.routeId (p.applicants + p.dependants)).2 ∧
      res.lastReviewed = route.last_reviewed := by
  simp only [calculate, hfind] at hres
  cases h3 : prioritySeg fees route p.applyFrom p.addPriority (p.applicants + p.dependants) with
  | none => rw [h3] at hres; simp at hres
  | some s3 =>
    cases h4 : superPrioritySeg fees route p.applyFrom p.addSuperPriority (p.applicants + p.dependants) with
    | none => rw [h3, h4] at hres; simp at hres
    | some s4 =>
      cases h5 : ceremonySeg fees route (p.applicants + p.dependants) with
      | none => rw [h3, h4, h5] at hres; simp at hres
      | some s5 =>
        rw [h3, h4, h5] at hres
        simp only [Except.ok.injEq] at hres
        exact ⟨s3, s4, s5, rfl, rfl, rfl, by rw [← hres], by rw [← hres], by rw [← hres]⟩

theorem mem_appFeeSeg (fees : Fees) (route : Route) (af : String) (n : ℕ) (li : LineItem) :
    li ∈ (appFeeSeg fees route af n).1 ↔
      ∃ k, getFeeKey route af = some k ∧ ¬k = "" ∧ (lookupFee fees k).isSome = true ∧
        li = ⟨appFeeLabel n, getFeeAmount fees k af * (n : ℚ)⟩ := by
  rcases h : getFeeKey route af with _ | k
  · simp [appFeeSeg, h]
  · simp only [appFeeSeg, h]
    by_cases hc : ¬k = "" ∧ (lookupFee fees k).isSome = true
    · rw [if_pos hc]
      simp only [List.mem_singleton, Option.some.injEq]
      constructor
      · intro hli
        exact ⟨k, rfl, hc.1, hc.2, hli⟩
      · rintro ⟨q, hq, _, _, hli⟩
        subst hq
        exact hli
    · rw [if_neg hc]
      simp only [List.not_mem_nil, false_iff, not_exists]
      rintro q ⟨hq, hne, hsome, _⟩
      injection hq with hq
      subst hq
      exact hc ⟨hne, hsome⟩

theorem mem_ihsSeg (rules : Rules) (route : Route) (d a dep : ℕ) (li : LineItem) :
    li ∈ (ihsSeg rules route d a dep).1 ↔
      (route.ihs_policy ≠ "not_required" ∧ route.ihs_policy ≠ "exempt") ∧
        0 < calculateIHS rules route d a dep ∧
        li = ⟨"Immigration Health Surcharge", calculateIHS rules route d a dep⟩ := by
  simp only [ihsSeg]
  split_ifs with h1 h2
  · simp only [List.mem_singleton]
    constructor
    · intro hli
      exact ⟨h1, h2, hli⟩
    · rintro ⟨_, _, hli⟩
      exact hli
  · simp only [List.not_mem_nil, false_iff]
    rintro ⟨_, hc, _⟩
    exact absurd hc (by exact h2)
  · simp only [List.not_mem_nil, false_iff]
    rintro ⟨hp, _, _⟩
    exact h1 hp

theorem mem_testSeg (rid : String) (n : ℕ) (li : LineItem) :
    li ∈ (testSeg rid n).1 ↔
      (strContains rid "indefinite-leave" = true ∨ strContains rid "citizenship" = true) ∧
        li = ⟨"Life in the UK Test", 50 * (n : ℚ)⟩ := by
  simp only [testSeg]
  split_ifs with h
  · simp only [List.mem_singleton]
    exact ⟨fun hli => ⟨h, hli⟩, fun hli => hli.2⟩
  · simp only [List.not_mem_nil, false_iff]
    rintro ⟨hc, _⟩
    exact h hc

theorem mem_prioritySeg (fees : Fees) (route : Route) (af : String) (flag : Bool) (n : ℕ)
    (s : List LineItem × ℚ) (li : LineItem)
    (h : prioritySeg fees route af flag n = some s) :
    li ∈ s.1 ↔
      flag = true ∧ route.extras_supported.contains "priority" = true ∧
        ∃ v, getPriorityFee fees af = some v ∧ li = ⟨"Priority Service", jsMulOpt v n⟩ := by
  simp only [prioritySeg] at h
  split_ifs at h with hc
  · cases hv : getPriorityFee fees af with
    | none => rw [hv] at h; cases h
    | some v =>
      rw [hv] at h
      injection h with h
      subst h
      simp only [List.mem_singleton, Option.some.injEq]
      constructor
      · intro hli
        exact ⟨hc.1, hc.2, v, rfl, hli⟩
      · rintro ⟨_, _, q, hq, hli⟩
        subst hq
        exact hli
  · injection h with h
    subst h
    simp only [List.not_mem_nil, false_iff]
    rintro ⟨hf, hs, _⟩
    exact hc ⟨hf, hs⟩

theorem mem_superPrioritySeg (fees : Fees) (route : Route) (af : String) (flag : Bool) (n : ℕ)
    (s : List LineItem × ℚ) (li : LineItem)
    (h : superPrioritySeg fees route af flag n = some s) :
    li ∈ s.1 ↔
      flag = true ∧ route.extras_supported.contains "super_priority" = true ∧
        ∃ v, getSuperPriorityFee fees af = some v ∧ li = ⟨"Super Priority Service", jsMulOpt v n⟩ := by
  simp only [superPrioritySeg] at h
  split_ifs at h with hc
  · cases hv : getSuperPriorityFee fees af with
    | none => rw [hv] at h; cases h
    | some v =>
      rw [hv] at h
      injection h with h
      subst h
      simp only [List.mem_singleton, Option.some.injEq]
      constructor
      · intro hli
        exact ⟨hc.1, hc.2, v, rfl, hli⟩
      · rintro ⟨_, _, q, hq, hli⟩
        subst hq
        exact hli
  · injection h with h
    subst h
    simp only [List.not_mem_nil, false_iff]
    rintro ⟨hf, hs, _⟩
    exact hc ⟨hf, hs⟩

theorem mem_ceremonySeg (fees : Fees) (route : Route) (n : ℕ)
    (s : List LineItem × ℚ) (li : LineItem)
    (h : ceremonySeg fees route n = some s) :
    li ∈ s.1 ↔
      route.extras_supported.contains "citizenship_ceremony" = true ∧
        ∃ fee, lookupFee fees "citizenship_ceremony" = some fee ∧
          li = ⟨"Citizenship Ceremony", jsMulOpt fee.amount_inside_uk n⟩ := by
  simp only [ceremonySeg] at h
  split_ifs at h with hc
  · cases hv : lookupFee fees "citizenship_ceremony" with
    | none => rw [hv] at h; cases h
    | some fee =>
      rw [hv] at h
      injection h with h
      subst h
      simp only [List.mem_singleton, Option.some.injEq]
      constructor
      · intro hli
        exact ⟨hc, fee, rfl, hli⟩
      · rintro ⟨_, q, hq, hli⟩
        subst hq
        exact hli
  · injection h with h
    subst h
    simp only [List.not_mem_nil, false_iff]
    rintro ⟨hf, _⟩
    exact hc hf

theorem appFeeSeg_snd (fees : Fees) (route : Route) (af : String) (n : ℕ) :
    (appFeeSeg fees route af n).2 = sumAmounts (appFeeSeg fees route af n).1 := by
  rcases h : getFeeKey route af with _ | k
  · simp [appFeeSeg, h, sumAmounts]
  · simp only [appFeeSeg, h]
    split_ifs <;> simp [sumAmounts]

theorem ihsSeg_snd (rules : Rules) (route : Route) (d a dep : ℕ) :
    (ihsSeg rules route d a dep).2 = sumAmounts (ihsSeg rules route d a dep).1 := by
  simp only [ihsSeg]
  split_ifs <;> simp [sumAmounts]

theorem testSeg_snd (rid : String) (n : ℕ) :
    (testSeg rid n).2 = sumAmounts (testSeg rid n).1 := by
  simp only [testSeg]
  split_ifs <;> simp [sumAmounts]

theorem prioritySeg_snd (fees : Fees) (route : Route) (af : String) (flag : Bool) (n : ℕ)
    (s : List LineItem × ℚ) (h : prioritySeg fees route af flag n = some s) :
    s.2 = sumAmounts s.1 := by
  simp only [prioritySeg] at h
  split_ifs at h with hc
  · cases hv : getPriorityFee fees af with
    | none => rw [hv] at h; cases h
    | some v => rw [hv] at h; injection h with h; subst h; simp [sumAmounts]
  · injection h with h; subst h; simp [sumAmounts]

theorem superPrioritySeg_snd (fees : Fees) (route : Route) (af : String) (flag : Bool) (n : ℕ)
    (s : List LineItem × ℚ) (h : superPrioritySeg fees route af flag n = some s) :
    s.2 = sumAmounts s.1 := by
  simp only [superPrioritySeg] at h
  split_ifs at h with hc
  · cases hv : getSuperPriorityFee fees af with
    | none => rw [hv] at h; cases h
    | some v => rw [hv] at h; injection h with h; subst h; simp [sumAmounts]
  · injection h with h; subst h; simp [sumAmounts]

theorem ceremonySeg_snd (fees : Fees) (route : Route) (n : ℕ)
    (s : List LineItem × ℚ) (h : ceremonySeg fees route n = some s) :
    s.2 = sumAmounts s.1 := by
  simp only [ceremonySeg] at h
  split_ifs at h with hc
  · cases hv : lookupFee fees "citizenship_ceremony" with
    | none => rw [hv] at h; cases h
    | some fee => rw [hv] at h; injection h with h; subst h; simp [sumAmounts]
  · injection h with h; subst h; simp [sumAmounts]

theorem years_half_of_le_six (m : ℕ) (h1 : 1 ≤ m) (h2 : m ≤ 6) :
    ((⌈(m : ℚ) / 6⌉ : ℤ) : ℚ) * (1 / 2) = 1 / 2 := by
  have h1q : (1 : ℚ) ≤ (m : ℚ) := by exact_mod_cast h1
  have h2q : (m : ℚ) ≤ 6 := by exact_mod_cast h2
  rw [ceil_eq_of ((m : ℚ) / 6) 1
    (by push_cast
        have hpos : (0 : ℚ) < (m : ℚ) := by linarith
        have := div_pos hpos (by norm_num : (0 : ℚ) < 6)
        linarith)
    (by push_cast
        rw [div_le_one (by norm_num : (0 : ℚ) < 6)]
        linarith)]
  norm_num

theorem years_one_of_seven_to_twelve (m : ℕ) (h1 : 7 ≤ m) (h2 : m ≤ 12) :
    ((⌈(m : ℚ) / 6⌉ : ℤ) : ℚ) * (1 / 2) = 1 := by
  have h1q : (7 : ℚ) ≤ (m : ℚ) := by exact_mod_cast h1
  have h2q : (m : ℚ) ≤ 12 := by exact_mod_cast h2
  rw [ceil_eq_of ((m : ℚ) / 6) 2
    (by rw [show ((2 : ℤ) : ℚ) - 1 = 1 by norm_num, lt_div_iff (by norm_num : (0 : ℚ) < 6)]
        linarith)
    (by rw [div_le_iff (by norm_num : (0 : ℚ) < 6)]
        push_cast
        linarith)]
  norm_num

theorem prioritySeg_total (fees : Fees) (route : Route) (af : String) (flag : Bool) (n : ℕ)
    (h : (flag = true ∧ route.extras_supported.contains "priority" = true) →
      (lookupFee fees "priority").isSome = true) :
    ∃ s, prioritySeg fees route af flag n = some s := by
  cases hx : prioritySeg fees route af flag n with
  | some s => exact ⟨s, rfl⟩
  | none =>
    exfalso
    simp only [prioritySeg] at hx
    split_ifs at hx with hc
    · rcases hv : getPriorityFee fees af with _ | v
      · simp only [getPriorityFee] at hv
        rcases hlf : lookupFee fees "priority" with _ | fee
        · have := h hc
          rw [hlf] at this
          simp at this
        · rw [hlf] at hv
          cases hv
      · rw [hv] at hx
        cases hx

theorem superPrioritySeg_total (fees : Fees) (route : Route) (af : String) (flag : Bool) (n : ℕ)
    (h : (flag = true ∧ route.extras_supported.contains "super_priority" = true) →
      (lookupFee fees "super_priority").isSome = true) :
    ∃ s, superPrioritySeg fees route af flag n = some s := by
  cases hx : superPrioritySeg fees route af flag n with
  | some s => exact ⟨s, rfl⟩
  | none =>
    exfalso
    simp only [superPrioritySeg] at hx
    split_ifs at hx with hc
    · rcases hv : getSuperPriorityFee fees af with _ | v
      · simp only [getSuperPriorityFee] at hv
        rcases hlf : lookupFee fees "super_priority" with _ | fee
        · have := h hc
          rw [hlf] at this
          simp at this
        · rw [hlf] at hv
          cases hv
      · rw [hv] at hx
        cases hx

theorem ceremonySeg_total (fees : Fees) (route : Route) (n : ℕ)
    (h : route.extras_supported.contains "citizenship_ceremony" = true →
      (lookupFee fees "citizenship_ceremony").isSome = true) :
    ∃ s, ceremonySeg fees route n = some s := by
  cases hx : ceremonySeg fees route n with
  | some s => exact ⟨s, rfl⟩
  | none =>
    exfalso
    simp only [ceremonySeg] at hx
    split_ifs at hx with hc
    · rcases hlf : lookupFee fees "citizenship_ceremony" with _ | fee
      · have := h hc
        rw [hlf] at this
        simp at this
      · rw [hlf] at hx
        cases hx

theorem jsOrQ_none (b : ℚ) : jsOrQ none b = b := rfl

theorem jsOrQ_some (x : ℚ) (b : ℚ) : jsOrQ (some x) b = if x = 0 then b else x := rfl

/-! Claim theorems. -/

/-- Claim C2: for a route with a non-empty `fee_items` list, the selected
    application-fee key is the first entry whose name contains "inside"
    (applying from inside the UK) or "outside" (otherwise), defaulting to
    the first entry; the application-fee line amount is the selected
    entry's amount for the requested location — falling back to the other
    location's non-null amount when the requested one is null — times
    (applicants + dependants). -/
theorem application_fee_line_spec (routes : List Route) (fees : Fees) (rules : Rules)
    (p : Params) (route : Route) (l : List String) (f0 : String) (rest : List String)
    (fee : FeeEntry) (k : String) (res : CalcResult)
    (hfind : routes.find? (fun r => r.route_id == p.routeId) = some route)
    (hfi : route.fee_items = some l)
    (hl : l = f0 :: rest)
    (haf : p.applyFrom = "inside_uk" ∨ p.applyFrom = "outside_uk")
    (hk : k = (l.find? (fun f => strContains f
        (if p.applyFrom = "inside_uk" then "inside" else "outside"))).getD f0)
    (hkne : ¬k = "")
    (hfee : lookupFee fees k = some fee)
    (hres : calculate routes fees rules p = Except.ok res) :
    getFeeKey route p.applyFrom = some k ∧
    (⟨appFeeLabel (p.applicants + p.dependants),
      getFeeAmount fees k p.applyFrom * ((p.applicants + p.dependants : ℕ) : ℚ)⟩ : LineItem)
      ∈ res.breakdown ∧
    (∀ a, (if p.applyFrom = "inside_uk" then fee.amount_inside_uk
        else fee.amount_outside_uk) = some a →
      getFeeAmount fees k p.applyFrom = a) ∧
    ((if p.applyFrom = "inside_uk" then fee.amount_inside_uk
        else fee.amount_outside_uk) = none →
      ∀ b, (if p.applyFrom = "inside_uk" then fee.amount_outside_uk
          else fee.amount_inside_uk) = some b →
        getFeeAmount fees k p.applyFrom = b) := by
  subst hl
  have hkey : getFeeKey route p.applyFrom = some k := by
    subst hk
    rcases haf with ha | ha
    · rw [ha]
      simp [getFeeKey, hfi]
    · rw [ha]
      simp [getFeeKey, hfi]
  obtain ⟨s3, s4, s5, h3, h4, h5, hb, _, _⟩ :=
    calculate_ok_inv routes fees rules p route res hfind hres
  refine ⟨hkey, ?_, ?_, ?_⟩
  · have happ : appFeeSeg fees route p.applyFrom (p.applicants + p.dependants) =
        ([⟨appFeeLabel (p.applicants + p.dependants),
          getFeeAmount fees k p.applyFrom * ((p.applicants + p.dependants : ℕ) : ℚ)⟩],
         getFeeAmount fees k p.applyFrom * ((p.applicants + p.dependants : ℕ) : ℚ)) := by
      simp only [appFeeSeg, hkey]
      rw [if_pos ⟨hkne, by rw [hfee]; rfl⟩]
    rw [hb]
    simp only [List.mem_append]
    refine Or.inl (Or.inl (Or.inl (Or.inl (Or.inl ?_))))
    rw [happ]
    exact List.mem_singleton.mpr rfl
  · intro a ha
    simp only [getFeeAmount, hfee]
    rcases haf with h | h
    · have hin : fee.amount_inside_uk = some a := by
        rw [h] at ha
        simpa using ha
      split_ifs with h1 h2
      · rw [hin]
        rfl
      · rw [h] at h2
        exact absurd h2.1 (by decide)
      · exact absurd ⟨h, by rw [hin]; simp⟩ h1
    · have hout : fee.amount_outside_uk = some a := by
        rw [h] at ha
        simpa using ha
      split_ifs with h1 h2
      · rw [h] at h1
        exact absurd h1.1 (by decide)
      · rw [hout]
        rfl
      · exact absurd ⟨h, by rw [hout]; simp⟩ h2
  · intro hnone b hb2
    simp only [getFeeAmount, hfee]
    rcases haf with h | h
    · have hin : fee.amount_inside_uk = none := by
        rw [h] at hnone
        simpa using hnone
      have hout : fee.amount_outside_uk = some b := by
        rw [h] at hb2
        simpa using hb2
      split_ifs with h1 h2
      · exact absurd h1.2 (by rw [hin]; simp)
      · rw [h] at h2
        exact absurd h2.1 (by decide)
      · rw [hin, hout, jsOrQ_none, jsOrQ_some]
        split_ifs with hb0
        · rw [hb0]
        · rfl
    · have hout : fee.amount_outside_uk = none := by
        rw [h] at hnone
        simpa using hnone
      have hin : fee.amount_inside_uk = some b := by
        rw [h] at hb2
        simpa using hb2
      split_ifs with h1 h2
      · rw [h] at h1
        exact absurd h1.1 (by decide)
      · exact absurd h2.2 (by rw [hout]; simp)
      · rw [hin, hout, jsOrQ_some, jsOrQ_none]
        split_ifs with hb0
        · rw [hb0]
        · rfl

/-- Claim C5: a Priority (resp. Super Priority) Service line item appears
    in a successful breakdown iff the corresponding request flag is set and
    the route lists `priority` (resp. `super_priority`) among its supported
    extras; when present, its amount is the location-dependent flat fee
    times (applicants + dependants). -/
theorem priority_lines_iff_flag_and_support (routes : List Route) (fees : Fees) (rules : Rules)
    (p : Params) (route : Route) (res : CalcResult)
    (hfind : routes.find? (fun r => r.route_id == p.routeId) = some route)
    (hres : calculate routes fees rules p = Except.ok res) :
    ((∃ li ∈ res.breakdown, li.item = "Priority Service") ↔
      (p.addPriority = true ∧ route.extras_supported.contains "priority" = true)) ∧
    ((∃ li ∈ res.breakdown, li.item = "Super Priority Service") ↔
      (p.addSuperPriority = true ∧ route.extras_supported.contains "super_priority" = true)) ∧
    (∀ li ∈ res.breakdown, li.item = "Priority Service" →
      ∃ fee, lookupFee fees "priority" = some fee ∧
        li.amount = (if p.applyFrom = "inside_uk" then fee.amount_inside_uk
          else fee.amount_outside_uk).getD 0 * ((p.applicants + p.dependants : ℕ) : ℚ)) ∧
    (∀ li ∈ res.breakdown, li.item = "Super Priority Service" →
      ∃ fee, lookupFee fees "super_priority" = some fee ∧
        li.amount = (if p.applyFrom = "inside_uk" then fee.amount_inside_uk
          else fee.amount_outside_uk).getD 0 * ((p.applicants + p.dependants : ℕ) : ℚ)) := by
  obtain ⟨s3, s4, s5, h3, h4, h5, hb, _, _⟩ :=
    calculate_ok_inv routes fees rules p route res hfind hres
  refine ⟨?_, ?_, ?_, ?_⟩
  · constructor
    · rintro ⟨li, hli, hitem⟩
      rw [hb] at hli
      simp only [List.mem_append] at hli
      rcases hli with ((((hA | hB) | hC) | hD) | hE) | hF
      · obtain ⟨k, _, _, _, hli⟩ := (mem_appFeeSeg _ _ _ _ _).1 hA
        rw [hli] at hitem
        exact absurd hitem (appFeeLabel_ne _ "Priority Service" (by decide))
      · obtain ⟨_, _, hli⟩ := (mem_ihsSeg _ _ _ _ _ _).1 hB
        simp [hli] at hitem
      · obtain ⟨hflag, hsup, _⟩ := (mem_prioritySeg _ _ _ _ _ _ _ h3).1 hC
        exact ⟨hflag, hsup⟩
      · obtain ⟨_, _, v, _, hli⟩ := (mem_superPrioritySeg _ _ _ _ _ _ _ h4).1 hD
        simp [hli] at hitem
      · obtain ⟨_, fee, _, hli⟩ := (mem_ceremonySeg _ _ _ _ _ h5).1 hE
        simp [hli] at hitem
      · obtain ⟨_, hli⟩ := (mem_testSeg _ _ _).1 hF
        simp [hli] at hitem
    · rintro ⟨hflag, hsup⟩
      rcases hv : getPriorityFee fees p.applyFrom with _ | v
      · exfalso
        simp only [prioritySeg, if_pos (⟨hflag, hsup⟩ :
          p.addPriority = true ∧ route.extras_supported.contains "priority" = true), hv] at h3
        cases h3
      · refine ⟨⟨"Priority Service", jsMulOpt v (p.applicants + p.dependants)⟩, ?_, rfl⟩
        rw [hb]
        simp only [List.mem_append]
        refine Or.inl (Or.inl (Or.inl (Or.inr ?_)))
        exact (mem_prioritySeg _ _ _ _ _ _ _ h3).2 ⟨hflag, hsup, v, hv, rfl⟩
  · constructor
    · rintro ⟨li, hli, hitem⟩
      rw [hb] at hli
      simp only [List.mem_append] at hli
      rcases hli with ((((hA | hB) | hC) | hD) | hE) | hF
      · obtain ⟨k, _, _, _, hli⟩ := (mem_appFeeSeg _ _ _ _ _).1 hA
        rw [hli] at hitem
        exact absurd hitem (appFeeLabel_ne _ "Super Priority Service" (by decide))
      · obtain ⟨_, _, hli⟩ := (mem_ihsSeg _ _ _ _ _ _).1 hB
        simp [hli] at hitem
      · obtain ⟨_, _, v, _, hli⟩ := (mem_prioritySeg _ _ _ _ _ _ _ h3).1 hC
        simp [hli] at hitem
      · obtain ⟨hflag, hsup, _⟩ := (mem_superPrioritySeg _ _ _ _ _ _ _ h4).1 hD
        exact ⟨hflag, hsup⟩
      · obtain ⟨_, fee, _, hli⟩ := (mem_ceremonySeg _ _ _ _ _ h5).1 hE
        simp [hli] at hitem
      · obtain ⟨_, hli⟩ := (mem_testSeg _ _ _).1 hF
        simp [hli] at hitem
    · rintro ⟨hflag, hsup⟩
      rcases hv : getSuperPriorityFee fees p.applyFrom with _ | v
      · exfalso
        simp only [superPrioritySeg, if_pos (⟨hflag, hsup⟩ :
          p.addSuperPriority = true ∧
            route.extras_supported.contains "super_priority" = true), hv] at h4
        cases h4
      · refine ⟨⟨"Super Priority Service", jsMulOpt v (p.applicants + p.dependants)⟩, ?_, rfl⟩
        rw [hb]
        simp only [List.mem_append]
        refine Or.inl (Or.inl (Or.inr ?_))
        exact (mem_superPrioritySeg _ _ _ _ _ _ _ h4).2 ⟨hflag, hsup, v, hv, rfl⟩
  · intro li hli hitem
    rw [hb] at hli
    simp only [List.mem_append] at hli
    rcases hli with ((((hA | hB) | hC) | hD) | hE) | hF
    · obtain ⟨k, _, _, _, hli⟩ := (mem_appFeeSeg _ _ _ _ _).1 hA
      rw [hli] at hitem
      exact absurd hitem (appFeeLabel_ne _ "Priority Service" (by decide))
    · obtain ⟨_, _, hli⟩ := (mem_ihsSeg _ _ _ _ _ _).1 hB
      simp [hli] at hitem
    · obtain ⟨_, _, v, hv, hli⟩ := (mem_prioritySeg _ _ _ _ _ _ _ h3).1 hC
      rcases hlf : lookupFee fees "priority" with _ | fee
      · simp only [getPriorityFee, hlf] at hv
        exact Option.noConfusion hv
      · simp only [getPriorityFee, hlf, Option.some.injEq] at hv
        refine ⟨fee, rfl, ?_⟩
        rw [hli, ← hv]
        rfl
    · obtain ⟨_, _, v, _, hli⟩ := (mem_superPrioritySeg _ _ _ _ _ _ _ h4).1 hD
      simp [hli] at hitem
    · obtain ⟨_, fee, _, hli⟩ := (mem_ceremonySeg _ _ _ _ _ h5).1 hE
      simp [hli] at hitem
    · obtain ⟨_, hli⟩ := (mem_testSeg _ _ _).1 hF
      simp [hli] at hitem
  · intro li hli hitem
    rw [hb] at hli
    simp only [List.mem_append] at hli
    rcases hli with ((((hA | hB) | hC) | hD) | hE) | hF
    · obtain ⟨k, _, _, _, hli⟩ := (mem_appFeeSeg _ _ _ _ _).1 hA
      rw [hli] at hitem
      exact absurd hitem (appFeeLabel_ne _ "Super Priority Service" (by decide))
    · obtain ⟨_, _, hli⟩ := (mem_ihsSeg _ _ _ _ _ _).1 hB
      simp [hli] at hitem
    · obtain ⟨_, _, v, _, hli⟩ := (mem_prioritySeg _ _ _ _ _ _ _ h3).1 hC
      simp [hli] at hitem
    · obtain ⟨_, _, v, hv, hli⟩ := (mem_superPrioritySeg _ _ _ _ _ _ _ h4).1 hD
      rcases hlf : lookupFee fees "super_priority" with _ | fee
      · simp only [getSuperPriorityFee, hlf] at hv
        exact Option.noConfusion hv
      · simp only [getSuperPriorityFee, hlf, Option.some.injEq] at hv
        refine ⟨fee, rfl, ?_⟩
        rw [hli, ← hv]
        rfl
    · obtain ⟨_, fee, _, hli⟩ := (mem_ceremonySeg _ _ _ _ _ h5).1 hE
      simp [hli] at hitem
    · obtain ⟨_, hli⟩ := (mem_testSeg _ _ _).1 hF
      simp [hli] at hitem

/-- Claim C6 (amended): an identifier absent from the route table yields
    the route-not-found error and no breakdown; a present identifier yields
    either an itemized breakdown or — when an unguarded fee access hits a
    missing priority, super-priority, or ceremony entry — a type error, and
    always a breakdown when those entries exist whenever needed. -/
theorem route_lookup_outcomes (routes : List Route) (fees : Fees) (rules : Rules)
    (p : Params) :
    ((∀ r ∈ routes, ¬r.route_id = p.routeId) →
      calculate routes fees rules p = Except.error CalcError.routeNotFound) ∧
    (∀ route, routes.find? (fun r => r.route_id == p.routeId) = some route →
      (∃ res, calculate routes fees rules p = Except.ok res) ∨
        calculate routes fees rules p = Except.error CalcError.typeError) ∧
    (∀ route, routes.find? (fun r => r.route_id == p.routeId) = some route →
      ((p.addPriority = true ∧ route.extras_supported.contains "priority" = true) →
        (lookupFee fees "priority").isSome = true) →
      ((p.addSuperPriority = true ∧ route.extras_supported.contains "super_priority" = true) →
        (lookupFee fees "super_priority").isSome = true) →
      (route.extras_supported.contains "citizenship_ceremony" = true →
        (lookupFee fees "citizenship_ceremony").isSome = true) →
      ∃ res, calculate routes fees rules p = Except.ok res) := by
  refine ⟨?_, ?_, ?_⟩
  · intro h
    have hfind : routes.find? (fun r => r.route_id == p.routeId) = none :=
      List.find?_eq_none.mpr (fun r hr => by simpa using h r hr)
    exact calculate_find_none routes fees rules p hfind
  · intro route hfind
    rcases h3 : prioritySeg fees route p.applyFrom p.addPriority (p.applicants + p.dependants)
      with _ | s3
    · exact Or.inr (by simp only [calculate, hfind, h3])
    · rcases h4 : superPrioritySeg fees route p.applyFrom p.addSuperPriority
        (p.applicants + p.dependants) with _ | s4
      · exact Or.inr (by simp only [calculate, hfind, h3, h4])
      · rcases h5 : ceremonySeg fees route (p.applicants + p.dependants) with _ | s5
        · exact Or.inr (by simp only [calculate, hfind, h3, h4, h5])
        · exact Or.inl ⟨_, calculate_ok_of routes fees rules p route s3 s4 s5 hfind h3 h4 h5⟩
  · intro route hfind hpri hspri hcer
    obtain ⟨s3, h3⟩ :=
      prioritySeg_total fees route p.applyFrom p.addPriority (p.applicants + p.dependants) hpri
    obtain ⟨s4, h4⟩ :=
      superPrioritySeg_total fees route p.applyFrom p.addSuperPriority
        (p.applicants + p.dependants) hspri
    obtain ⟨s5, h5⟩ := ceremonySeg_total fees route (p.applicants + p.dependants) hcer
    exact ⟨_, calculate_ok_of routes fees rules p route s3 s4 s5 hfind h3 h4 h5⟩

/-- Claim C7 (amended): a declared application-fee key missing from the fee
    table does not fail: the calculation completes (provided the unguarded
    priority, super-priority, and ceremony accesses find their entries when
    exercised) and the missing entry contributes no application-fee line. -/
theorem missing_declared_fee_silent_zero (routes : List Route) (fees : Fees) (rules : Rules)
    (p : Params) (route : Route) (k : String)
    (hfind : routes.find? (fun r => r.route_id == p.routeId) = some route)
    (hk : getFeeKey route p.applyFrom = some k)
    (hmiss : lookupFee fees k = none)
    (hpri : (p.addPriority = true ∧ route.extras_supported.contains "priority" = true) →
      (lookupFee fees "priority").isSome = true)
    (hspri : (p.addSuperPriority = true ∧
        route.extras_supported.contains "super_priority" = true) →
      (lookupFee fees "super_priority").isSome = true)
    (hcer : route.extras_supported.contains "citizenship_ceremony" = true →
      (lookupFee fees "citizenship_ceremony").isSome = true) :
    appFeeSeg fees route p.applyFrom (p.applicants + p.dependants) = ([], 0) ∧
    ∃ res, calculate routes fees rules p = Except.ok res ∧
      ∀ li ∈ res.breakdown, ¬li.item = appFeeLabel (p.applicants + p.dependants) := by
  have happ : appFeeSeg fees route p.applyFrom (p.applicants + p.dependants) = ([], 0) := by
    simp only [appFeeSeg, hk]
    rw [if_neg]
    rintro ⟨_, hs⟩
    rw [hmiss] at hs
    simp at hs
  refine ⟨happ, ?_⟩
  obtain ⟨s3, h3⟩ :=
    prioritySeg_total fees route p.applyFrom p.addPriority (p.applicants + p.dependants) hpri
  obtain ⟨s4, h4⟩ :=
    superPrioritySeg_total fees route p.applyFrom p.addSuperPriority
      (p.applicants + p.dependants) hspri
  obtain ⟨s5, h5⟩ := ceremonySeg_total fees route (p.applicants + p.dependants) hcer
  refine ⟨_, calculate_ok_of routes fees rules p route s3 s4 s5 hfind h3 h4 h5, ?_⟩
  intro li hli
  simp only [List.mem_append] at hli
  rcases hli with ((((hA | hB) | hC) | hD) | hE) | hF
  · rw [happ] at hA
    cases hA
  · obtain ⟨_, _, hli⟩ := (mem_ihsSeg _ _ _ _ _ _).1 hB
    rw [hli]
    intro hx
    exact appFeeLabel_ne _ "Immigration Health Surcharge" (by decide) hx.symm
  · obtain ⟨_, _, v, _, hli⟩ := (mem_prioritySeg _ _ _ _ _ _ _ h3).1 hC
    rw [hli]
    intro hx
    exact appFeeLabel_ne _ "Priority Service" (by decide) hx.symm
  · obtain ⟨_, _, v, _, hli⟩ := (mem_superPrioritySeg _ _ _ _ _ _ _ h4).1 hD
    rw [hli]
    intro hx
    exact appFeeLabel_ne _ "Super Priority Service" (by decide) hx.symm
  · obtain ⟨_, fee, _, hli⟩ := (mem_ceremonySeg _ _ _ _ _ h5).1 hE
    rw [hli]
    intro hx
    exact appFeeLabel_ne _ "Citizenship Ceremony" (by decide) hx.symm
  · obtain ⟨_, hli⟩ := (mem_testSeg _ _ _).1 hF
    rw [hli]
    intro hx
    exact appFeeLabel_ne _ "Life in the UK Test" (by decide) hx.symm

/-- Claim C1: for every successful call to `Calculator.calculate`, the
    returned total equals the sum of the amounts of all line items in the
    returned breakdown. -/
theorem total_eq_sum_of_breakdown (routes : List Route) (fees : Fees) (rules : Rules)
    (p : Params) (res : CalcResult)
    (hres : calculate routes fees rules p = Except.ok res) :
    res.total = sumAmounts res.breakdown := by
  cases hfind : routes.find? (fun r => r.route_id == p.routeId) with
  | none =>
    rw [calculate_find_none routes fees rules p hfind] at hres
    simp at hres
  | some route =>
    obtain ⟨s3, s4, s5, h3, h4, h5, hb, ht, _⟩ :=
      calculate_ok_inv routes fees rules p route res hfind hres
    rw [hb, ht, sumAmounts_append, sumAmounts_append, sumAmounts_append, sumAmounts_append,
      sumAmounts_append, appFeeSeg_snd, ihsSeg_snd,
      prioritySeg_snd fees route p.applyFrom p.addPriority _ s3 h3,
      superPrioritySeg_snd fees route p.applyFrom p.addSuperPriority _ s4 h4,
      ceremonySeg_snd fees route _ s5 h5, testSeg_snd]

/-- Claim C3: for a route whose IHS policy is neither `not_required` nor
    `exempt`, the IHS amount is `rate × (ceil(m/6) × 0.5) × (applicants +
    dependants)` with student rate exactly for `required_student`, the IHS
    line item is present iff this amount is positive, and 1–6 months bill
    half a year while 7–12 months bill a full year. -/
theorem ihs_amount_spec (routes : List Route) (fees : Fees) (rules : Rules)
    (p : Params) (route : Route) (res : CalcResult)
    (hfind : routes.find? (fun r => r.route_id == p.routeId) = some route)
    (hpol : route.ihs_policy ≠ "not_required" ∧ route.ihs_policy ≠ "exempt")
    (hres : calculate routes fees rules p = Except.ok res) :
    calculateIHS rules route p.duration p.applicants p.dependants =
      (if route.ihs_policy = "required_student" then rules.ihs_rates.student.rate_per_year
        else rules.ihs_rates.standard.rate_per_year)
        * (((⌈(p.duration : ℚ) / 6⌉ : ℤ) : ℚ) * (1 / 2))
        * ((p.applicants + p.dependants : ℕ) : ℚ) ∧
    ((⟨"Immigration Health Surcharge",
        calculateIHS rules route p.duration p.applicants p.dependants⟩ : LineItem)
        ∈ res.breakdown ↔
      0 < calculateIHS rules route p.duration p.applicants p.dependants) ∧
    (∀ m : ℕ, 1 ≤ m → m ≤ 6 → ((⌈(m : ℚ) / 6⌉ : ℤ) : ℚ) * (1 / 2) = 1 / 2) ∧
    (∀ m : ℕ, 7 ≤ m → m ≤ 12 → ((⌈(m : ℚ) / 6⌉ : ℤ) : ℚ) * (1 / 2) = 1) := by
  obtain ⟨s3, s4, s5, h3, h4, h5, hb, _, _⟩ :=
    calculate_ok_inv routes fees rules p route res hfind hres
  refine ⟨rfl, ?_, years_half_of_le_six, years_one_of_seven_to_twelve⟩
  constructor
  · intro hmem
    rw [hb] at hmem
    simp only [List.mem_append] at hmem
    rcases hmem with ((((hA | hB) | hC) | hD) | hE) | hF
    · obtain ⟨k, _, _, _, hli⟩ := (mem_appFeeSeg _ _ _ _ _).1 hA
      exact absurd (congrArg LineItem.item hli).symm
        (appFeeLabel_ne _ "Immigration Health Surcharge" (by decide))
    · exact ((mem_ihsSeg _ _ _ _ _ _).1 hB).2.1
    · obtain ⟨_, _, v, _, hli⟩ := (mem_prioritySeg _ _ _ _ _ _ _ h3).1 hC
      simp at hli
    · obtain ⟨_, _, v, _, hli⟩ := (mem_superPrioritySeg _ _ _ _ _ _ _ h4).1 hD
      simp at hli
    · obtain ⟨_, fee, _, hli⟩ := (mem_ceremonySeg _ _ _ _ _ h5).1 hE
      simp at hli
    · obtain ⟨_, hli⟩ := (mem_testSeg _ _ _).1 hF
      simp at hli
  · intro hc
    rw [hb]
    simp only [List.mem_append]
    exact Or.inl (Or.inl (Or.inl (Or.inl (Or.inr
      ((mem_ihsSeg _ _ _ _ _ _).2 ⟨hpol, hc, rfl⟩)))))

/-- Claim C4: for every route whose IHS policy is `not_required` or
    `exempt`, the breakdown of a successful calculation contains no
    Immigration Health Surcharge line item. -/
theorem no_ihs_line_when_policy_skips (routes : List Route) (fees : Fees) (rules : Rules)
    (p : Params) (route : Route) (res : CalcResult)
    (hfind : routes.find? (fun r => r.route_id == p.routeId) = some route)
    (hpol : route.ihs_policy = "not_required" ∨ route.ihs_policy = "exempt")
    (hres : calculate routes fees rules p = Except.ok res) :
    ∀ li ∈ res.breakdown, li.item ≠ "Immigration Health Surcharge" := by
  obtain ⟨s3, s4, s5, h3, h4, h5, hb, _, _⟩ :=
    calculate_ok_inv routes fees rules p route res hfind hres
  intro li hli
  rw [hb] at hli
  simp only [List.mem_append] at hli
  rcases hli with ((((hA | hB) | hC) | hD) | hE) | hF
  · obtain ⟨k, _, _, _, hli⟩ := (mem_appFeeSeg _ _ _ _ _).1 hA
    rw [hli]
    exact appFeeLabel_ne _ "Immigration Health Surcharge" (by decide)
  · obtain ⟨⟨hn, he⟩, _, _⟩ := (mem_ihsSeg _ _ _ _ _ _).1 hB
    rcases hpol with hp | hp
    · exact absurd hp hn
    · exact absurd hp he
  · obtain ⟨_, _, v, _, hli⟩ := (mem_prioritySeg _ _ _ _ _ _ _ h3).1 hC
    rw [hli]
    simp
  · obtain ⟨_, _, v, _, hli⟩ := (mem_superPrioritySeg _ _ _ _ _ _ _ h4).1 hD
    rw [hli]
    simp
  · obtain ⟨_, fee, _, hli⟩ := (mem_ceremonySeg _ _ _ _ _ h5).1 hE
    rw [hli]
    simp
  · obtain ⟨_, hli⟩ := (mem_testSeg _ _ _).1 hF
    rw [hli]
    simp

/-- Claim C8: a Life in the UK Test line item of exactly
    `50 × (applicants + dependants)` is in the breakdown of a successful
    calculation iff the route identifier contains "indefinite-leave" or
    "citizenship", for every route table, fee table and rules table. -/
theorem life_in_uk_test_line_iff (routes : List Route) (fees : Fees) (rules : Rules)
    (p : Params) (res : CalcResult)
    (hres : calculate routes fees rules p = Except.ok res) :
    ((∃ li ∈ res.breakdown, li.item = "Life in the UK Test") ↔
      (strContains p.routeId "indefinite-leave" = true ∨
        strContains p.routeId "citizenship" = true)) ∧
    ∀ li ∈ res.breakdown, li.item = "Life in the UK Test" →
      li.amount = 50 * ((p.applicants + p.dependants : ℕ) : ℚ) := by
  cases hfind : routes.find? (fun r => r.route_id == p.routeId) with
  | none =>
    rw [calculate_find_none routes fees rules p hfind] at hres
    simp at hres
  | some route =>
    obtain ⟨s3, s4, s5, h3, h4, h5, hb, _, _⟩ :=
      calculate_ok_inv routes fees rules p route res hfind hres
    constructor
    · constructor
      · rintro ⟨li, hli, hitem⟩
        rw [hb] at hli
        simp only [List.mem_append] at hli
        rcases hli with ((((hA | hB) | hC) | hD) | hE) | hF
        · obtain ⟨k, _, _, _, hli⟩ := (mem_appFeeSeg _ _ _ _ _).1 hA
          rw [hli] at hitem
          exact absurd hitem (appFeeLabel_ne _ "Life in the UK Test" (by decide))
        · obtain ⟨_, _, hli⟩ := (mem_ihsSeg _ _ _ _ _ _).1 hB
          simp [hli] at hitem
        · obtain ⟨_, _, v, _, hli⟩ := (mem_prioritySeg _ _ _ _ _ _ _ h3).1 hC
          simp [hli] at hitem
        · obtain ⟨_, _, v, _, hli⟩ := (mem_superPrioritySeg _ _ _ _ _ _ _ h4).1 hD
          simp [hli] at hitem
        · obtain ⟨_, fee, _, hli⟩ := (mem_ceremonySeg _ _ _ _ _ h5).1 hE
          simp [hli] at hitem
        · exact ((mem_testSeg _ _ _).1 hF).1
      · intro hcond
        refine ⟨⟨"Life in the UK Test", 50 * ((p.applicants + p.dependants : ℕ) : ℚ)⟩, ?_, rfl⟩
        rw [hb]
        simp only [List.mem_append]
        exact Or.inr ((mem_testSeg _ _ _).2 ⟨hcond, rfl⟩)
    · intro li hli hitem
      rw [hb] at hli
      simp only [List.mem_append] at hli
      rcases hli with ((((hA | hB) | hC) | hD) | hE) | hF
      · obtain ⟨k, _, _, _, hli⟩ := (mem_appFeeSeg _ _ _ _ _).1 hA
        rw [hli] at hitem
        exact absurd hitem (appFeeLabel_ne _ "Life in the UK Test" (by decide))
      · obtain ⟨_, _, hli⟩ := (mem_ihsSeg _ _ _ _ _ _).1 hB
        simp [hli] at hitem
      · obtain ⟨_, _, v, _, hli⟩ := (mem_prioritySeg _ _ _ _ _ _ _ h3).1 hC
        simp [hli] at hitem
      · obtain ⟨_, _, v, _, hli⟩ := (mem_superPrioritySeg _ _ _ _ _ _ _ h4).1 hD
        simp [hli] at hitem
      · obtain ⟨_, fee, _, hli⟩ := (mem_ceremonySeg _ _ _ _ _ h5).1 hE
        simp [hli] at hitem
      · obtain ⟨_, hli⟩ := (mem_testSeg _ _ _).1 hF
        rw [hli]

/-- Claim C9: the validation script exits with status 1 iff at least one
    hard error is recorded (a parse failure included); with warnings only
    or nothing recorded it exits with status 0. -/
theorem validation_exit_iff_hard_errors (d : VData) :
    ((runValidation d).exitCode = 1 ↔ 0 < (runValidation d).errors) ∧
    ((runValidation d).exitCode = 0 ↔ (runValidation d).errors = 0) := by
  obtain ⟨rd, fk, rp⟩ := d
  rcases rd with _ | routes <;> rcases fk with _ | feeKeys <;> rcases rp with _ | _ <;>
    simp only [runValidation, Option.isNone_none, Option.isNone_some] <;>
    first
      | (split_ifs with h <;> constructor <;> constructor <;> intro hx <;> simp_all <;> omega)
      | (constructor <;> constructor <;> intro hx <;> simp_all <;> omega)

/-- Claim C10: for every route that lists `citizenship_ceremony` among its
    supported extras, the Citizenship Ceremony line of a successful
    calculation is priced from the fee table's inside-UK ceremony amount
    times (applicants + dependants), whatever the apply-from location; the
    outside-UK ceremony amount never enters the price. -/
theorem ceremony_uses_inside_amount_always (routes : List Route) (fees : Fees) (rules : Rules)
    (p : Params) (route : Route) (res : CalcResult)
    (hfind : routes.find? (fun r => r.route_id == p.routeId) = some route)
    (hsup : route.extras_supported.contains "citizenship_ceremony" = true)
    (hres : calculate routes fees rules p = Except.ok res) :
    ∃ fee, lookupFee fees "citizenship_ceremony" = some fee ∧
      (⟨"Citizenship Ceremony",
        fee.amount_inside_uk.getD 0 * ((p.applicants + p.dependants : ℕ) : ℚ)⟩ : LineItem)
        ∈ res.breakdown ∧
      ∀ li ∈ res.breakdown, li.item = "Citizenship Ceremony" →
        li.amount = fee.amount_inside_uk.getD 0 * ((p.applicants + p.dependants : ℕ) : ℚ) := by
  obtain ⟨s3, s4, s5, h3, h4, h5, hb, _, _⟩ :=
    calculate_ok_inv routes fees rules p route res hfind hres
  rcases hv : lookupFee fees "citizenship_ceremony" with _ | fee
  · exfalso
    simp only [ceremonySeg, if_pos hsup, hv] at h5
    simp at h5
  · refine ⟨fee, rfl, ?_, ?_⟩
    · rw [hb]
      simp only [List.mem_append]
      exact Or.inl (Or.inr ((mem_ceremonySeg _ _ _ _ _ h5).2 ⟨hsup, fee, hv, rfl⟩))
    · intro li hli hitem
      rw [hb] at hli
      simp only [List.mem_append] at hli
      rcases hli with ((((hA | hB) | hC) | hD) | hE) | hF
      · obtain ⟨k, _, _, _, hli⟩ := (mem_appFeeSeg _ _ _ _ _).1 hA
        rw [hli] at hitem
        exact absurd hitem (appFeeLabel_ne _ "Citizenship Ceremony" (by decide))
      · obtain ⟨_, _, hli⟩ := (mem_ihsSeg _ _ _ _ _ _).1 hB
        simp [hli] at hitem
      · obtain ⟨_, _, v, _, hli⟩ := (mem_prioritySeg _ _ _ _ _ _ _ h3).1 hC
        simp [hli] at hitem
      · obtain ⟨_, _, v, _, hli⟩ := (mem_superPrioritySeg _ _ _ _ _ _ _ h4).1 hD
        simp [hli] at hitem
      · obtain ⟨_, fee2, hv2, hli⟩ := (mem_ceremonySeg _ _ _ _ _ h5).1 hE
        rw [hv] at hv2
        injection hv2 with hv2
        subst hv2
        rw [hli]
        exact rfl
      · obtain ⟨_, hli⟩ := (mem_testSeg _ _ _).1 hF
        simp [hli] at hitem

/-! Concrete evaluations used by the witness theorems. -/

theorem wcalcSW_eq : calculate wRoutes wFees wRules wParamsSW = Except.ok wResSW := by
  simp [calculate, appFeeSeg, ihsSeg, prioritySeg, superPrioritySeg, ceremonySeg, testSeg,
    getFeeKey, getFeeAmount, lookupFee, getPriorityFee, getSuperPriorityFee, calculateIHS,
    jsOrQ, jsMulOpt, strContains, occursChars, leadsChars, appFeeLabel, List.find?, wRoutes,
    wRouteSW, wRouteVisit, wRouteILR, wRouteCit, wRouteGhost, wFees, wRules, wParamsSW, wResSW]
  norm_num
  rfl

theorem wcalcSWpri_eq : calculate wRoutes wFees wRules wParamsSWpri = Except.ok wResSWpri := by
  simp [calculate, appFeeSeg, ihsSeg, prioritySeg, superPrioritySeg, ceremonySeg, testSeg,
    getFeeKey, getFeeAmount, lookupFee, getPriorityFee, getSuperPriorityFee, calculateIHS,
    jsOrQ, jsMulOpt, strContains, occursChars, leadsChars, appFeeLabel, List.find?, wRoutes,
    wRouteSW, wRouteVisit, wRouteILR, wRouteCit, wRouteGhost, wFees, wRules, wParamsSWpri,
    wResSWpri]
  norm_num
  rfl

theorem wcalcVisit_eq : calculate wRoutes wFees wRules wParamsVisit = Except.ok wResVisit := by
  simp [calculate, appFeeSeg, ihsSeg, prioritySeg, superPrioritySeg, ceremonySeg, testSeg,
    getFeeKey, getFeeAmount, lookupFee, getPriorityFee, getSuperPriorityFee, calculateIHS,
    jsOrQ, jsMulOpt, strContains, occursChars, leadsChars, appFeeLabel, List.find?, wRoutes,
    wRouteSW, wRouteVisit, wRouteILR, wRouteCit, wRouteGhost, wFees, wRules, wParamsVisit,
    wResVisit]
  norm_num
  rfl

theorem wcalcILR_eq : calculate wRoutes wFees wRules wParamsILR = Except.ok wResILR := by
  simp [calculate, appFeeSeg, ihsSeg, prioritySeg, superPrioritySeg, ceremonySeg, testSeg,
    getFeeKey, getFeeAmount, lookupFee, getPriorityFee, getSuperPriorityFee, calculateIHS,
    jsOrQ, jsMulOpt, strContains, occursChars, leadsChars, appFeeLabel, List.find?, wRoutes,
    wRouteSW, wRouteVisit, wRouteILR, wRouteCit, wRouteGhost, wFees, wRules, wParamsILR,
    wResILR]

theorem wcalcCit_eq : calculate wRoutes wFees wRules wParamsCit = Except.ok wResCit := by
  simp [calculate, appFeeSeg, ihsSeg, prioritySeg, superPrioritySeg, ceremonySeg, testSeg,
    getFeeKey, getFeeAmount, lookupFee, getPriorityFee, getSuperPriorityFee, calculateIHS,
    jsOrQ, jsMulOpt, strContains, occursChars, leadsChars, appFeeLabel, List.find?, wRoutes,
    wRouteSW, wRouteVisit, wRouteILR, wRouteCit, wRouteGhost, wFees, wRules, wParamsCit,
    wResCit]
  norm_num

theorem wcalcGhost_eq : calculate wRoutes wFees wRules wParamsGhost = Except.ok wResGhost := by
  simp [calculate, appFeeSeg, ihsSeg, prioritySeg, superPrioritySeg, ceremonySeg, testSeg,
    getFeeKey, getFeeAmount, lookupFee, getPriorityFee, getSuperPriorityFee, calculateIHS,
    jsOrQ, jsMulOpt, strContains, occursChars, leadsChars, appFeeLabel, List.find?, wRoutes,
    wRouteSW, wRouteVisit, wRouteILR, wRouteCit, wRouteGhost, wFees, wRules, wParamsGhost,
    wResGhost]

/-! Counterexamples. -/

/-- Counterexample to C6 as stated: the identifier names a loaded route,
    yet the call produces no breakdown — the unguarded ceremony fee access
    throws a type error because the fee table lacks the entry. -/
theorem route_present_no_breakdown_cex :
    [wRouteCit].find? (fun r => r.route_id == wParamsCit.routeId) = some wRouteCit ∧
    calculate [wRouteCit] wFeesEmpty wRules wParamsCit = Except.error CalcError.typeError :=
  ⟨rfl, rfl⟩

/-- Counterexample to C7 as stated: the priority fee entry is missing
    while the priority branch runs, and the calculation throws a type
    error instead of completing with a zero contribution. -/
theorem missing_priority_fee_throws_cex :
    wRouteSW.extras_supported.contains "priority" = true ∧
    wParamsSWpri.addPriority = true ∧
    lookupFee wFeesNoPriority "priority" = none ∧
    calculate [wRouteSW] wFeesNoPriority wRules wParamsSWpri =
      Except.error CalcError.typeError :=
  ⟨by decide, rfl, rfl, rfl⟩

/-! Witness theorems. -/

/-- Witness for C1 at a concrete skilled-worker calculation. -/
theorem total_eq_sum_of_breakdown_witness :
    calculate wRoutes wFees wRules wParamsSW = Except.ok wResSW ∧
    wResSW.total = sumAmounts wResSW.breakdown :=
  ⟨wcalcSW_eq, total_eq_sum_of_breakdown wRoutes wFees wRules wParamsSW wResSW wcalcSW_eq⟩

/-- Witness for C2: the outside-UK key is selected and its line appears. -/
theorem application_fee_line_spec_witness :
    getFeeKey wRouteSW wParamsSW.applyFrom = some "fee_sw_outside" ∧
    (⟨appFeeLabel (wParamsSW.applicants + wParamsSW.dependants),
      getFeeAmount wFees "fee_sw_outside" wParamsSW.applyFrom
        * ((wParamsSW.applicants + wParamsSW.dependants : ℕ) : ℚ)⟩ : LineItem)
      ∈ wResSW.breakdown := by
  obtain ⟨h1, h2, _, _⟩ :=
    application_fee_line_spec wRoutes wFees wRules wParamsSW wRouteSW
      ["fee_sw_outside", "fee_sw_inside"] "fee_sw_outside" ["fee_sw_inside"]
      ⟨none, some 719⟩ "fee_sw_outside" wResSW rfl rfl rfl (Or.inr rfl)
      (by decide) (by decide) rfl wcalcSW_eq
  exact ⟨h1, h2⟩

/-- Witness for C3 at the 12-month skilled-worker calculation. -/
theorem ihs_amount_spec_witness :
    ((⟨"Immigration Health Surcharge",
      calculateIHS wRules wRouteSW wParamsSW.duration wParamsSW.applicants
        wParamsSW.dependants⟩ : LineItem) ∈ wResSW.breakdown ↔
      0 < calculateIHS wRules wRouteSW wParamsSW.duration wParamsSW.applicants
        wParamsSW.dependants) :=
  (ihs_amount_spec wRoutes wFees wRules wParamsSW wRouteSW wResSW rfl
    ⟨by decide, by decide⟩ wcalcSW_eq).2.1

/-- Witness for C4 at the visitor route with policy not_required,
    instantiated at the single line item of its breakdown. -/
theorem no_ihs_line_when_policy_skips_witness :
    (wRouteVisit.ihs_policy = "not_required" ∨ wRouteVisit.ihs_policy = "exempt") ∧
    (⟨"Application Fee (1 applicant)", (115 : ℚ)⟩ : LineItem) ∈ wResVisit.breakdown ∧
    (⟨"Application Fee (1 applicant)", (115 : ℚ)⟩ : LineItem).item ≠
      "Immigration Health Surcharge" := by
  refine ⟨Or.inl rfl, by simp [wResVisit], ?_⟩
  exact no_ihs_line_when_policy_skips wRoutes wFees wRules wParamsVisit wRouteVisit wResVisit
    rfl (Or.inl rfl) wcalcVisit_eq ⟨"Application Fee (1 applicant)", (115 : ℚ)⟩
    (by simp [wResVisit])

/-- Witness for C5 at a calculation with the priority flag set. -/
theorem priority_lines_iff_flag_and_support_witness :
    ((∃ li ∈ wResSWpri.breakdown, li.item = "Priority Service") ↔
      (wParamsSWpri.addPriority = true ∧
        wRouteSW.extras_supported.contains "priority" = true)) :=
  (priority_lines_iff_flag_and_support wRoutes wFees wRules wParamsSWpri wRouteSW wResSWpri
    rfl wcalcSWpri_eq).1

/-- Witness for C6 at an identifier absent from the table. -/
theorem route_lookup_outcomes_witness :
    calculate wRoutes wFees wRules wParamsNone = Except.error CalcError.routeNotFound :=
  (route_lookup_outcomes wRoutes wFees wRules wParamsNone).1 (by decide)

/-- Witness for C7 at the route with a dangling fee key. -/
theorem missing_declared_fee_silent_zero_witness :
    appFeeSeg wFees wRouteGhost wParamsGhost.applyFrom
      (wParamsGhost.applicants + wParamsGhost.dependants) = ([], 0) ∧
    ∃ res, calculate wRoutes wFees wRules wParamsGhost = Except.ok res ∧
      ∀ li ∈ res.breakdown,
        ¬li.item = appFeeLabel (wParamsGhost.applicants + wParamsGhost.dependants) :=
  missing_declared_fee_silent_zero wRoutes wFees wRules wParamsGhost wRouteGhost
    "missing_fee" rfl (by decide) rfl (by decide) (by decide) (by decide)

/-- Witness for C8 at the settlement route identifier. -/
theorem life_in_uk_test_line_iff_witness :
    ((∃ li ∈ wResILR.breakdown, li.item = "Life in the UK Test") ↔
      (strContains wParamsILR.routeId "indefinite-leave" = true ∨
        strContains wParamsILR.routeId "citizenship" = true)) :=
  (life_in_uk_test_line_iff wRoutes wFees wRules wParamsILR wResILR wcalcILR_eq).1

/-- Witness for C10 at the citizenship route with two applicants. -/
theorem ceremony_uses_inside_amount_always_witness :
    (⟨"Citizenship Ceremony",
      (Option.some (80 : ℚ)).getD 0
        * ((wParamsCit.applicants + wParamsCit.dependants : ℕ) : ℚ)⟩ : LineItem)
      ∈ wResCit.breakdown := by
  obtain ⟨fee, hfee, hmem, _⟩ :=
    ceremony_uses_inside_amount_always wRoutes wFees wRules wParamsCit wRouteCit wResCit
      rfl (by decide) wcalcCit_eq
  have h80 : lookupFee wFees "citizenship_ceremony" =
      some (⟨some 80, some 80⟩ : FeeEntry) := rfl
  rw [h80] at hfee
  injection hfee with hfee
  subst hfee
  exact hmem

end VisaCalc
